import Mathlib

/-!
Shallow embedding of the dash-validator library (src/index.js) and proofs about
its segment verification pipeline, policy predicates and timestamp check.

HTTP transports (`util.requestHeaders`, `util.requestCacheFill`) are modelled as
oracles of type `Fetch`; a rejected request (timeout, connection failure,
non-2xx) is an `Except.error`.  JavaScript functions that may throw are
modelled with `Except`, a thrown exception being `Except.error`.
-/

/-- HTTP headers: a mapping from (lower-cased) header name to value, modelled
as an association list with unique keys.  `lookup` returning `none` models a
JavaScript property access evaluating to `undefined`. -/
abbrev Headers := List (String × String)

/-- A JavaScript exception / rejection value, modelled by its message. -/
abbrev JsError := String

/-- A segment predicate (`verifyFn` in the source).  JavaScript predicates may
throw, so the result is an `Except`: `Except.error` models a thrown
exception. -/
abbrev Pred := Headers → Except JsError Bool

/-- A transport oracle (`util.requestHeaders` / `util.requestCacheFill`):
`Except.error` models a rejected request. -/
abbrev Fetch := String → Except JsError Headers

/-- Manifest type: the parser produces `"static"` (VOD) or `"dynamic"` (live). -/
inductive MType where
  | static
  | dynamic
deriving DecidableEq

/-- The parsed manifest value consumed by the validator (type, live-edge
timestamp in ms since epoch, segment URI list, total duration). -/
structure Manifest where
  type : MType
  timeAtHead : Int
  segments : List String
  totalDuration : Nat
deriving DecidableEq

/-- The default segment predicate (`defaultVerifyFn` in src/index.js).
JavaScript evaluates the three-way disjunction left to right with short
circuiting; reading `.split` off an absent header throws a TypeError, modelled
as `Except.error`. -/
def defaultVerifyFn (headers : Headers) : Except JsError Bool :=
  match headers.lookup "cache-control" with
  | none => Except.ok false
  | some _ =>
    match headers.lookup "access-control-expose-headers" with
    | none => Except.error "TypeError: cannot read split of undefined"
    | some expose =>
      if (expose.splitOn ",").contains "Date" = false then Except.ok false
      else
        match headers.lookup "access-control-allow-headers" with
        | none => Except.error "TypeError: cannot read split of undefined"
        | some allow => Except.ok ((allow.splitOn ",").contains "origin")

/-- Numeric value of a digit string (the regex capture group `(\d+)`). -/
def digitsToNat (ds : List Char) : Nat :=
  ds.foldl (fun acc c => acc * 10 + (c.toNat - 48)) 0

/-- Try to match the regex `max-age=(\d+)` at the very start of `cs`, returning
the numeric value of the capture group. -/
def maxAgeAt (cs : List Char) : Option Nat :=
  if ("max-age=".toList).isPrefixOf cs then
    let ds := (cs.drop 8).takeWhile Char.isDigit
    if ds.isEmpty then none else some (digitsToNat ds)
  else none

/-- Left-to-right regex search for `max-age=(\d+)`: the first position where
the whole pattern (including at least one digit) matches wins. -/
def maxAgeSearch : List Char → Option Nat
  | [] => none
  | c :: rest =>
    match maxAgeAt (c :: rest) with
    | some n => some n
    | none => maxAgeSearch rest

/-- `s.match(/max-age=(\d+)/)`: the numeric value of the first capture, or
`none` when the string does not match. -/
def maxAgeMatch (s : String) : Option Nat :=
  maxAgeSearch s.toList

/-- The default manifest predicate (`defaultManifestVerifyFn` in src/index.js).
The JavaScript falsiness test `!headers["cache-control"]` is true both for an
absent header and for the empty string value. -/
def defaultManifestVerifyFn (headers : Headers) (type : MType) : Bool :=
  match type with
  | MType.dynamic =>
    match headers.lookup "cache-control" with
    | none => false
    | some cc =>
      if cc = "" then false
      else
        match maxAgeMatch cc with
        | none => false
        | some n => if n > 10 then false else true
  | MType.static => true

/-- `{ clock, clockOffset }` result of `verifyTimestamps`.  `clockOffset` is
absent (`none`) exactly when the source never assigns the property. -/
structure TimestampResult where
  clock : String
  clockOffset : Option Nat
deriving DecidableEq

/-- The effective drift threshold, the source line
`const diffCriteria = allowedDiff || 10000;`: both an omitted argument
(`none`) and `0` are falsy in JavaScript and fall back to 10000. -/
def diffCriteria (allowedDiff : Option Int) : Int :=
  match allowedDiff with
  | none => 10000
  | some a => if a = 0 then 10000 else a

/-- `DashValidator.prototype.verifyTimestamps`, with the current wall-clock
time `new Date().getTime()` passed explicitly as `now`. -/
def verifyTimestamps (allowedDiff : Option Int) (m : Manifest) (now : Int) : TimestampResult :=
  let crit := diffCriteria allowedDiff
  if m.type = MType.static then
    { clock := "OK", clockOffset := none }
  else
    let offset := (m.timeAtHead - now).natAbs
    if (offset : Int) > crit then
      { clock := "BAD", clockOffset := some offset }
    else
      { clock := "OK", clockOffset := some offset }

/-- The `result` object built by the private `verifySegment` function:
`ok`, optionally `reason` (set only on the rejection path, which also catches a
throwing predicate) and optionally `headers` (set only after the predicate was
evaluated without throwing). -/
structure ProbeResult where
  ok : Bool
  reason : Option JsError
  headers : Option Headers
deriving DecidableEq

/-- The private `verifySegment` function of src/index.js: choose HEAD or GET,
fetch, run the predicate on the response headers; any rejection or thrown
exception is caught and turned into a non-ok result carrying the error as
`reason` (note the source assigns `result.ok` before `result.headers`, so a
throwing predicate leaves `headers` unset). -/
def verifySegment (verifyFn : Pred) (fH fF : Fetch) (segmentUrl : String)
    (doDownload : Bool) : ProbeResult :=
  match (if doDownload then fF else fH) segmentUrl with
  | Except.error err => { ok := false, reason := some err, headers := none }
  | Except.ok headers =>
    match verifyFn headers with
    | Except.error err => { ok := false, reason := some err, headers := none }
    | Except.ok b => { ok := b, reason := none, headers := some headers }

/-- `SuccessInfo` of the source's jsdoc: an entry of the `ok` list. -/
structure SuccessInfo where
  uri : String
deriving DecidableEq

/-- `FailedInfo` of the source's jsdoc: an entry of the `failed` list, with the
`reason` and `headers` properties as actually pushed by `checkSegment`
(`undefined` modelled as `none`). -/
structure FailedInfo where
  uri : String
  reason : Option JsError
  headers : Option Headers
deriving DecidableEq

/-- `SegmentVerifyResult` of the source's jsdoc: the verification report. -/
structure SegmentVerifyResult where
  failed : List FailedInfo
  ok : List SuccessInfo
deriving DecidableEq

/-- The inner `checkSegment` recursion of `verifySegments`: walk the segment
list sequentially, pushing each outcome onto the `ok` or `failed` list (push
appends, so list order is evaluation order). -/
def checkSegments (verifyFn : Pred) (fH fF : Fetch) (doDownload : Bool) (base : String) :
    List String → SegmentVerifyResult
  | [] => { failed := [], ok := [] }
  | segmentUrl :: rest =>
    let result := verifySegment verifyFn fH fF (base ++ segmentUrl) doDownload
    let acc := checkSegments verifyFn fH fF doDownload base rest
    if result.ok then
      { failed := acc.failed, ok := { uri := segmentUrl } :: acc.ok }
    else
      { failed := { uri := segmentUrl, reason := result.reason,
                    headers := result.headers } :: acc.failed,
        ok := acc.ok }

/-- `DashValidator.prototype.verifySegments`: `verifyFn || defaultVerifyFn`
applied over the segment list. -/
def verifySegments (verifyFn : Option Pred) (segments : List String) (doDownload : Bool)
    (fH fF : Fetch) (base : String) : SegmentVerifyResult :=
  checkSegments (verifyFn.getD defaultVerifyFn) fH fF doDownload base segments

/-- Modelled from the spec: `util.getRandomItem` (lib/util.js is not under
src/) returns one element of the array drawn uniformly at random; the random
draw is modelled by an externally supplied index `idx`, reduced modulo the
array length. -/
def getRandomItem (idx : Nat) (xs : List String) : String :=
  xs.getD (idx % xs.length) ""

/-- `DashValidator.prototype.spotcheckSegments`: build a sample of `noSamples`
independent random draws (with replacement) from `m.segments`, then run the
ordinary pipeline on it.  `rand i` is the random index drawn at loop
iteration `i`. -/
def spotcheckSegments (verifyFn : Option Pred) (noSamples : Nat) (doDownload : Bool)
    (m : Manifest) (rand : Nat → Nat) (fH fF : Fetch) (base : String) :
    SegmentVerifyResult :=
  let spotchecks := (List.range noSamples).map fun i => getRandomItem (rand i) m.segments
  verifySegments verifyFn spotchecks doDownload fH fF base

/-- Modelled from the spec: `util.sleep` (lib/util.js is not under src/); per
the spec the pipeline runs probes strictly sequentially and inserts a fixed
minimum delay of 50 ms between the completion of one probe and the start of
the next.  `dur s` is the (oracle) duration of the probe of segment `s`; each
entry of the result is `(segment, startTime, endTime)` in milliseconds, in
evaluation order, the first probe starting at time `t`. -/
def segmentSchedule (dur : String → Nat) : List String → Nat → List (String × Nat × Nat)
  | [], _ => []
  | s :: rest, t => (s, t, t + dur s) :: segmentSchedule dur rest (t + dur s + 50)

/-- The allow-list of event names of `DashValidator.prototype.on`. -/
def eventNames : List String := ["invalidplayhead", "invalidheaders", "checking"]

/-- The runner's registered listeners: `(eventName, callback)` pairs in
registration order, callbacks modelled by numeric identifiers. -/
structure RunnerListeners where
  listeners : List (String × Nat)
deriving DecidableEq

/-- Modelled from the spec: `DashValidatorRunner.prototype.on`
(lib/dash_validator_runner.js is not under src/); per the spec, registration
appends the callback to the event's ordered callback list. -/
def runnerOn (st : RunnerListeners) (eventName : String) (cb : Nat) : RunnerListeners :=
  ⟨st.listeners ++ [(eventName, cb)]⟩

/-- `DashValidator.prototype.on`: forward to the runner only when the event
name is in the fixed allow-list, otherwise do nothing.  (`on` is a reserved
token in Lean, hence the name `onEvent`.) -/
def onEvent (st : RunnerListeners) (eventName : String) (cb : Nat) : RunnerListeners :=
  if eventNames.contains eventName then runnerOn st eventName cb else st

/-- A transport oracle that rejects every request (connection refused). -/
def errFetch : Fetch := fun _ => Except.error "connect ECONNREFUSED"

/-- A transport oracle that answers every request with fixed headers. -/
def okFetch : Fetch := fun _ => Except.ok [("cache-control", "max-age=5")]

/-- A segment predicate that rejects every header set (returns false, never
throws). -/
def falsePred : Pred := fun _ => Except.ok false

/-- A constant probe-duration oracle used to instantiate the schedule. -/
def wdur : String → Nat := fun _ => 7

/-- Helper: the `ok`/`failed` lists built by the `checkSegment` recursion
together have exactly one entry per input segment. -/
theorem checkSegments_length (verifyFn : Pred) (fH fF : Fetch) (dl : Bool) (base : String)
    (segs : List String) :
    (checkSegments verifyFn fH fF dl base segs).ok.length +
      (checkSegments verifyFn fH fF dl base segs).failed.length = segs.length := by
  induction segs with
  | nil => rfl
  | cons s rest ih =>
    by_cases hr : (verifySegment verifyFn fH fF (base ++ s) dl).ok
    · simp [checkSegments, hr]
      omega
    · simp [checkSegments, hr]
      omega

/-- Helper: the URIs recorded in the `ok` and `failed` lists are a permutation
of the input segment list, so each segment is recorded exactly once. -/
theorem checkSegments_uris_perm (verifyFn : Pred) (fH fF : Fetch) (dl : Bool) (base : String)
    (segs : List String) :
    ((checkSegments verifyFn fH fF dl base segs).ok.map SuccessInfo.uri ++
      (checkSegments verifyFn fH fF dl base segs).failed.map FailedInfo.uri).Perm segs := by
  induction segs with
  | nil => simp [checkSegments]
  | cons s rest ih =>
    by_cases hr : (verifySegment verifyFn fH fF (base ++ s) dl).ok
    · simpa [checkSegments, hr] using ih.cons s
    · simp only [checkSegments, hr, Bool.false_eq_true, if_false]
      refine List.Perm.trans List.perm_middle (ih.cons s)

/-- Helper: a segment whose fetch is rejected with error `e` yields a failed
entry carrying `e` as reason (and no headers). -/
theorem checkSegments_error_mem (verifyFn : Pred) (fH fF : Fetch) (dl : Bool) (base : String)
    (segs : List String) (s : String) (e : JsError)
    (hs : s ∈ segs) (hf : (if dl then fF else fH) (base ++ s) = Except.error e) :
    ({ uri := s, reason := some e, headers := none } : FailedInfo) ∈
      (checkSegments verifyFn fH fF dl base segs).failed := by
  induction segs with
  | nil => cases hs
  | cons a rest ih =>
    rcases List.mem_cons.mp hs with hsa | hmem
    · subst hsa
      have hseg : verifySegment verifyFn fH fF (base ++ s) dl =
          { ok := false, reason := some e, headers := none } := by
        unfold verifySegment
        rw [hf]
      simp [checkSegments, hseg]
    · by_cases hr : (verifySegment verifyFn fH fF (base ++ a) dl).ok
      · simpa [checkSegments, hr] using ih hmem
      · simp only [checkSegments, hr, Bool.false_eq_true, if_false]
        exact List.mem_cons_of_mem _ (ih hmem)

/-- Helper: a segment whose fetch succeeds with headers `h` but whose
predicate returns false yields a failed entry with no reason and with the
response headers. -/
theorem checkSegments_policy_mem (verifyFn : Pred) (fH fF : Fetch) (dl : Bool) (base : String)
    (segs : List String) (s : String) (h : Headers)
    (hs : s ∈ segs) (hf : (if dl then fF else fH) (base ++ s) = Except.ok h)
    (hv : verifyFn h = Except.ok false) :
    ({ uri := s, reason := none, headers := some h } : FailedInfo) ∈
      (checkSegments verifyFn fH fF dl base segs).failed := by
  induction segs with
  | nil => cases hs
  | cons a rest ih =>
    rcases List.mem_cons.mp hs with hsa | hmem
    · subst hsa
      have hseg : verifySegment verifyFn fH fF (base ++ s) dl =
          { ok := false, reason := none, headers := some h } := by
        unfold verifySegment
        rw [hf]
        simp only [hv]
      simp [checkSegments, hseg]
    · by_cases hr : (verifySegment verifyFn fH fF (base ++ a) dl).ok
      · simpa [checkSegments, hr] using ih hmem
      · simp only [checkSegments, hr, Bool.false_eq_true, if_false]
        exact List.mem_cons_of_mem _ (ih hmem)

/-- C1: For every segment list `segs` and every predicate, the report returned
by `verifySegments` partitions the input: the length of its `ok` list plus the
length of its `failed` list equals the length of `segs`, and the URIs recorded
across the two lists are a permutation of `segs`, so each segment is attempted
and recorded exactly once. -/
theorem verifySegments_partitions (vf : Option Pred) (segs : List String) (dl : Bool)
    (fH fF : Fetch) (base : String) :
    (verifySegments vf segs dl fH fF base).ok.length +
        (verifySegments vf segs dl fH fF base).failed.length = segs.length ∧
      ((verifySegments vf segs dl fH fF base).ok.map SuccessInfo.uri ++
        (verifySegments vf segs dl fH fF base).failed.map FailedInfo.uri).Perm segs :=
  ⟨checkSegments_length (vf.getD defaultVerifyFn) fH fF dl base segs,
   checkSegments_uris_perm (vf.getD defaultVerifyFn) fH fF dl base segs⟩

/-- C2: A transport error raised while probing one URI is caught locally and
recorded as a `failed` entry for that URI carrying the error as its reason;
the pipeline does not abort: the report still has exactly one entry per input
segment, so every remaining segment was attempted. -/
theorem verifySegments_transport_error_recorded (vf : Option Pred) (segs : List String)
    (dl : Bool) (fH fF : Fetch) (base : String) (s : String) (e : JsError)
    (hs : s ∈ segs) (hf : (if dl then fF else fH) (base ++ s) = Except.error e) :
    ({ uri := s, reason := some e, headers := none } : FailedInfo) ∈
        (verifySegments vf segs dl fH fF base).failed ∧
      (verifySegments vf segs dl fH fF base).ok.length +
        (verifySegments vf segs dl fH fF base).failed.length = segs.length :=
  ⟨checkSegments_error_mem (vf.getD defaultVerifyFn) fH fF dl base segs s e hs hf,
   checkSegments_length (vf.getD defaultVerifyFn) fH fF dl base segs⟩

/-- C2 witness: a pipeline over one segment whose fetch is rejected with
`connect ECONNREFUSED` records exactly that failure. -/
theorem verifySegments_transport_error_recorded_witness :
    ({ uri := "s1", reason := some "connect ECONNREFUSED", headers := none } : FailedInfo) ∈
      (verifySegments none ["s1"] false errFetch errFetch "").failed :=
  (verifySegments_transport_error_recorded none ["s1"] false errFetch errFetch ""
    "s1" "connect ECONNREFUSED" (by decide) rfl).1

/-- C3 counterexample: for a segment whose probe succeeds but whose predicate
returns false, the source never assigns `result.reason`, so the failed entry
has `reason = none` (JavaScript `undefined`), not the string `"policy"`. -/
theorem policy_failure_reason_counterexample :
    (verifySegments (some falsePred) ["seg1"] false okFetch okFetch "").failed =
        [{ uri := "seg1", reason := none, headers := some [("cache-control", "max-age=5")] }] ∧
      (none : Option JsError) ≠ some "policy" :=
  ⟨rfl, by decide⟩

/-- C3 amended: for every segment whose probe succeeds at transport level but
whose predicate returns false, the resulting failed entry carries the response
headers and has no reason (`none`); a policy violation is thus distinguishable
from a transport error, whose entry carries the error as reason and no
headers. -/
theorem policy_failure_recorded_with_headers (vf : Pred) (segs : List String)
    (dl : Bool) (fH fF : Fetch) (base : String) (s : String) (h : Headers)
    (hs : s ∈ segs) (hf : (if dl then fF else fH) (base ++ s) = Except.ok h)
    (hv : vf h = Except.ok false) :
    ({ uri := s, reason := none, headers := some h } : FailedInfo) ∈
      (verifySegments (some vf) segs dl fH fF base).failed :=
  checkSegments_policy_mem vf fH fF dl base segs s h hs hf hv

/-- C3 witness: a policy failure on a concrete segment records the entry with
the response headers and no reason. -/
theorem policy_failure_recorded_with_headers_witness :
    ({ uri := "seg1", reason := none,
       headers := some [("cache-control", "max-age=5")] } : FailedInfo) ∈
      (verifySegments (some falsePred) ["seg1"] false okFetch okFetch "").failed :=
  policy_failure_recorded_with_headers falsePred ["seg1"] false okFetch okFetch ""
    "seg1" [("cache-control", "max-age=5")] (by decide) rfl rfl

/-- C4: the default segment predicate is not total: on headers that contain
`cache-control` but lack `access-control-expose-headers` it throws a TypeError
(reading `.split` of `undefined`) instead of returning false as the spec
requires. -/
theorem defaultVerifyFn_throws_on_missing_expose :
    ∃ e, defaultVerifyFn [("cache-control", "max-age=5")] = Except.error e :=
  ⟨_, rfl⟩

/-- C5 counterexample: with `allowedDiff = 0` and a dynamic manifest whose
offset is 5000 ms, the code returns `clock = "OK"` although the offset exceeds
the given `allowedDiff` (the falsy 0 is silently replaced by 10000), refuting
"clock = BAD if and only if offset > allowedDiff" as stated. -/
theorem verifyTimestamps_zero_diff_counterexample :
    verifyTimestamps (some 0) ⟨MType.dynamic, 1000, [], 0⟩ 6000 =
        { clock := "OK", clockOffset := some 5000 } ∧
      (5000 : Int) > 0 :=
  ⟨by decide, by decide⟩

/-- Helper: unfolding of `verifyTimestamps` on a non-static manifest. -/
theorem verifyTimestamps_dynamic (ad : Option Int) (m : Manifest) (now : Int)
    (hne : ¬ m.type = MType.static) :
    verifyTimestamps ad m now =
      if ((m.timeAtHead - now).natAbs : Int) > diffCriteria ad
      then { clock := "BAD", clockOffset := some (m.timeAtHead - now).natAbs }
      else { clock := "OK", clockOffset := some (m.timeAtHead - now).natAbs } := by
  simp only [verifyTimestamps]
  rw [if_neg hne]

/-- C5 amended: `verifyTimestamps` returns `{clock := "OK"}` (with no
clockOffset) for every static manifest; for every dynamic manifest it computes
`offset = |timeAtHead - now|` and returns `clock = "BAD"` if and only if
`offset` exceeds the effective threshold `diffCriteria allowedDiff` (the given
`allowedDiff`, except that 0 and an omitted argument fall back to 10000), and
reports `clockOffset = offset` in both the OK and the BAD case. -/
theorem verifyTimestamps_characterization (ad : Option Int) (m : Manifest) (now : Int) :
    (m.type = MType.static →
        verifyTimestamps ad m now = { clock := "OK", clockOffset := none }) ∧
      (m.type = MType.dynamic →
        ((verifyTimestamps ad m now).clock = "BAD" ↔
            ((m.timeAtHead - now).natAbs : Int) > diffCriteria ad) ∧
          (verifyTimestamps ad m now).clockOffset = some (m.timeAtHead - now).natAbs) := by
  constructor
  · intro hst
    simp [verifyTimestamps, hst]
  · intro hdyn
    have hne : ¬ m.type = MType.static := by rw [hdyn]; intro hc; cases hc
    rw [verifyTimestamps_dynamic ad m now hne]
    by_cases hgt : ((m.timeAtHead - now).natAbs : Int) > diffCriteria ad
    · rw [if_pos hgt]
      exact ⟨by simpa using hgt, rfl⟩
    · rw [if_neg hgt]
      refine ⟨?_, rfl⟩
      constructor
      · intro hbad
        have hob : ("OK" : String) = "BAD" := hbad
        exact absurd hob (by decide)
      · intro hc
        exact absurd hc hgt

/-- C5 witness: `verifyTimestamps 5000` on a dynamic manifest whose live edge
is 20000 ms behind `now` returns `clock = "BAD"`, `clockOffset = 20000`. -/
theorem verifyTimestamps_characterization_witness :
    (verifyTimestamps (some 5000) ⟨MType.dynamic, 0, [], 0⟩ 20000).clock = "BAD" ∧
      (verifyTimestamps (some 5000) ⟨MType.dynamic, 0, [], 0⟩ 20000).clockOffset = some 20000 := by
  have h := verifyTimestamps_characterization (some 5000) ⟨MType.dynamic, 0, [], 0⟩ 20000
  refine ⟨(h.2 rfl).1.mpr (by decide), ?_⟩
  rw [(h.2 rfl).2]
  decide

/-- C10: calling `verifyTimestamps` with `allowedDiff = 0` behaves identically
to calling it with the argument omitted, for every manifest and every current
time: the falsy zero is replaced by the default threshold 10000 ms. -/
theorem verifyTimestamps_zero_equals_default (m : Manifest) (now : Int) :
    verifyTimestamps (some 0) m now = verifyTimestamps none m now := by
  simp [verifyTimestamps, diffCriteria]

/-- C6: the default manifest predicate returns true for every static manifest;
for a dynamic manifest it returns true exactly when the `cache-control` header
is present and contains a parsable `max-age=(\d+)` directive whose value is at
most 10 (so absence, an empty value, or an unparsable directive all fail, and
`max-age=30` fails while `max-age=5` passes). -/
theorem defaultManifestVerifyFn_characterization (h : Headers) :
    defaultManifestVerifyFn h MType.static = true ∧
      (defaultManifestVerifyFn h MType.dynamic = true ↔
        ∃ cc n, h.lookup "cache-control" = some cc ∧ maxAgeMatch cc = some n ∧ n ≤ 10) := by
  refine ⟨rfl, ?_⟩
  constructor
  · intro htrue
    rcases hcc : h.lookup "cache-control" with _ | cc
    · simp [defaultManifestVerifyFn, hcc] at htrue
    · by_cases hemp : cc = ""
      · subst hemp
        simp [defaultManifestVerifyFn, hcc] at htrue
      · rcases hm : maxAgeMatch cc with _ | n
        · simp [defaultManifestVerifyFn, hcc, hemp, hm] at htrue
        · by_cases hn : n > 10
          · simp [defaultManifestVerifyFn, hcc, hemp, hm, hn] at htrue
          · exact ⟨cc, n, rfl, hm, by omega⟩
  · rintro ⟨cc, n, hcc, hm, hn⟩
    have hemp : ¬ cc = "" := by
      intro hc
      rw [hc] at hm
      cases hm
    simp [defaultManifestVerifyFn, hcc, hemp, hm, show ¬ n > 10 by omega]

/-- Helper: `getD` at an index below the length is a member of the list. -/
theorem getD_mem_of_lt {α : Type} {l : List α} {n : Nat} (d : α) (hn : n < l.length) :
    l.getD n d ∈ l := by
  rw [List.getD_eq_getElem l d hn]
  exact List.getElem_mem hn

/-- Helper: a random draw from a nonempty list is an element of the list. -/
theorem getRandomItem_mem (idx : Nat) (xs : List String) (hne : xs ≠ []) :
    getRandomItem idx xs ∈ xs := by
  unfold getRandomItem
  have hlen : 0 < xs.length := List.length_pos.mpr hne
  have hlt : idx % xs.length < xs.length := Nat.mod_lt idx hlen
  exact getD_mem_of_lt _ hlt

/-- C7: `spotcheckSegments` draws `n` samples (with replacement, so duplicates
are possible) from `m.segments` — every sampled element is a segment of the
manifest — and runs the ordinary verification pipeline over that sample of
size `n`; for `n = 0` it returns the empty report `{ok := [], failed := []}`
for every transport oracle, i.e. without performing any network call. -/
theorem spotcheckSegments_sampling (vf : Option Pred) (dl : Bool) (m : Manifest)
    (rand : Nat → Nat) (base : String) (n : Nat) (hne : m.segments ≠ []) :
    (∃ sample : List String, sample.length = n ∧ (∀ s ∈ sample, s ∈ m.segments) ∧
        ∀ fH fF : Fetch,
          spotcheckSegments vf n dl m rand fH fF base =
            verifySegments vf sample dl fH fF base) ∧
      ∀ fH fF : Fetch,
        spotcheckSegments vf 0 dl m rand fH fF base = { failed := [], ok := [] } := by
  constructor
  · refine ⟨(List.range n).map fun i => getRandomItem (rand i) m.segments, by simp, ?_, ?_⟩
    · intro s hsmem
      rcases List.mem_map.mp hsmem with ⟨i, _, hi⟩
      rw [← hi]
      exact getRandomItem_mem (rand i) m.segments hne
    · intro fH fF
      rfl
  · intro fH fF
    rfl

/-- C7 witness: a spotcheck of 0 samples over a one-segment manifest yields
the empty report even under a transport oracle that rejects everything. -/
theorem spotcheckSegments_sampling_witness :
    spotcheckSegments none 0 false ⟨MType.static, 0, ["a.mp4"], 0⟩ (fun _ => 0)
      errFetch errFetch "" = { failed := [], ok := [] } :=
  (spotcheckSegments_sampling none false ⟨MType.static, 0, ["a.mp4"], 0⟩ (fun _ => 0)
    "" 0 (by decide)).2 errFetch errFetch

/-- Helper: every probe in a schedule starts no earlier than the schedule's
start time. -/
theorem segmentSchedule_start_ge (dur : String → Nat) (segs : List String) (t : Nat) :
    ∀ e ∈ segmentSchedule dur segs t, t ≤ e.2.1 := by
  induction segs generalizing t with
  | nil => intro e he; cases he
  | cons s rest ih =>
    intro e he
    rcases List.mem_cons.mp he with he0 | hmem
    · subst he0; exact Nat.le_refl t
    · have := ih (t + dur s + 50) e hmem
      omega

/-- C8: in the pipeline's probe schedule any earlier probe `i` ends at least
50 ms before a later probe `j` starts; in particular probes are strictly
sequential (at most one in flight: interval `i` ends before interval `j`
begins) and at least the 50 ms minimum delay elapses between the completion of
one probe and the start of the next. -/
theorem segmentSchedule_rate_limit (dur : String → Nat) (segs : List String) (t0 : Nat)
    (i j : Nat) (hij : i < j) (hj : j < (segmentSchedule dur segs t0).length) :
    ((segmentSchedule dur segs t0).getD i ("", 0, 0)).2.2 + 50 ≤
      ((segmentSchedule dur segs t0).getD j ("", 0, 0)).2.1 := by
  induction segs generalizing t0 i j with
  | nil => simp [segmentSchedule] at hj
  | cons s rest ih =>
    match i, j with
    | 0, (j' + 1) =>
      simp only [segmentSchedule, List.getD_cons_zero, List.getD_cons_succ]
      have hj' : j' < (segmentSchedule dur rest (t0 + dur s + 50)).length := by
        simpa [segmentSchedule] using hj
      have hmem : (segmentSchedule dur rest (t0 + dur s + 50)).getD j' ("", 0, 0) ∈
          segmentSchedule dur rest (t0 + dur s + 50) := getD_mem_of_lt _ hj'
      have := segmentSchedule_start_ge dur rest (t0 + dur s + 50) _ hmem
      omega
    | (i' + 1), (j' + 1) =>
      simp only [segmentSchedule, List.getD_cons_succ]
      exact ih (t0 + dur s + 50) i' j' (by omega) (by simpa [segmentSchedule] using hj)

/-- C8 witness: for a two-segment schedule with 7 ms probes starting at time
0, the first probe ends at 7 and the second starts at 57. -/
theorem segmentSchedule_rate_limit_witness :
    ((segmentSchedule wdur ["a", "b"] 0).getD 0 ("", 0, 0)).2.2 + 50 ≤
      ((segmentSchedule wdur ["a", "b"] 0).getD 1 ("", 0, 0)).2.1 :=
  segmentSchedule_rate_limit wdur ["a", "b"] 0 0 1 (by decide) (by decide)

/-- C9: for every event name outside the fixed allow-list
`{invalidplayhead, invalidheaders, checking}`, `on(eventName, callback)` is a
silent no-op (the state is returned unchanged, no listener registered, no
error); a name inside the set is forwarded to the runner, which appends the
callback to the registration list. -/
theorem onEvent_filter (st : RunnerListeners) (eventName : String) (cb : Nat) :
    (eventName ∉ eventNames → onEvent st eventName cb = st) ∧
      (eventName ∈ eventNames →
        (onEvent st eventName cb).listeners = st.listeners ++ [(eventName, cb)]) := by
  constructor
  · intro hnot
    simp [onEvent, hnot]
  · intro hmem
    simp [onEvent, hmem, runnerOn]

/-- C9 witness: subscribing to the unknown event `"typo"` leaves the state
unchanged, while subscribing to `"checking"` registers the callback. -/
theorem onEvent_filter_witness :
    onEvent ⟨[]⟩ "typo" 0 = ⟨[]⟩ ∧
      (onEvent ⟨[]⟩ "checking" 1).listeners = [("checking", 1)] :=
  ⟨(onEvent_filter ⟨[]⟩ "typo" 0).1 (by decide),
   (onEvent_filter ⟨[]⟩ "checking" 1).2 (by decide)⟩
